import Mathlib

/-!
Verification of the decision layer of the NostalgiaForInfinityX7 FreqAI
strategy (`NostalgiaForInfinityX7_FreqAI.py`) and of the Hybrid wrapper
(`NostalgiaForInfinityX7_Hybrid.py`).

The development shallowly embeds the per-row/per-column dataframe
computations of the two strategies.  Numeric cell values are modelled by
`Val`, an extended rational type with NaN and signed infinities that follows
the IEEE-754 behaviour of the pandas/numpy arithmetic the strategies use in
the cases that matter here: exact arithmetic on finite values, division by
zero, NaN propagation, and comparisons involving NaN being false.  Signed
zero is not modelled; a zero denominator behaves as positive zero.

Rational arithmetic inside the embedded definitions is expressed through
the helpers `qadd`, `qsub`, `qmul`, `qdiv`, `qneg` (and rational constants
through `mkRat`), which are proved below to coincide with the standard
`+ - * / -` on `ℚ`; they are used only because they evaluate by kernel
reduction, so concrete runs of the embedded code can be checked by
`decide`.  Theorem statements use the standard operations.

Candle dataframes are modelled as lists of rows (one structure per strategy
holding exactly the columns the embedded functions read or write).  Outputs
of external collaborators (the ta-lib/qtpylib indicator library, the FreqAI
inference engine, and the wrapped `NostalgiaForInfinityX7` strategy, none of
which are part of this repository) appear as inputs of the embedded
functions, universally quantified in the theorems.
-/

/-- Computable rational addition (kernel-reducible form of `a + b`). -/
def qadd (a b : ℚ) : ℚ := Rat.divInt (a.num * b.den + b.num * a.den) ((a.den : Int) * b.den)

/-- Computable rational subtraction (kernel-reducible form of `a - b`). -/
def qsub (a b : ℚ) : ℚ := Rat.divInt (a.num * b.den - b.num * a.den) ((a.den : Int) * b.den)

/-- Computable rational multiplication (kernel-reducible form of `a * b`). -/
def qmul (a b : ℚ) : ℚ := Rat.divInt (a.num * b.num) ((a.den : Int) * b.den)

/-- Computable rational division (kernel-reducible form of `a / b`, with
`qdiv a 0 = 0` as in Mathlib). -/
def qdiv (a b : ℚ) : ℚ := Rat.divInt (a.num * b.den) ((a.den : Int) * b.num)

/-- Computable rational negation (kernel-reducible form of `-a`). -/
def qneg (a : ℚ) : ℚ := Rat.divInt (-a.num) (a.den : Int)

lemma num_eq_mul_den (a : ℚ) : (a.num : ℚ) = a * a.den := by
  have hA : ((a.den : ℚ)) ≠ 0 := by exact_mod_cast a.den_nz
  have h := Rat.num_div_den a
  rw [div_eq_iff hA] at h
  exact h

lemma qadd_eq (a b : ℚ) : qadd a b = a + b := by
  have hA : ((a.den : ℚ)) ≠ 0 := by exact_mod_cast a.den_nz
  have hB : ((b.den : ℚ)) ≠ 0 := by exact_mod_cast b.den_nz
  rw [qadd, Rat.divInt_eq_div]
  push_cast
  rw [div_eq_iff (by positivity)]
  rw [num_eq_mul_den, num_eq_mul_den]
  ring

lemma qsub_eq (a b : ℚ) : qsub a b = a - b := by
  have hA : ((a.den : ℚ)) ≠ 0 := by exact_mod_cast a.den_nz
  have hB : ((b.den : ℚ)) ≠ 0 := by exact_mod_cast b.den_nz
  rw [qsub, Rat.divInt_eq_div]
  push_cast
  rw [div_eq_iff (by positivity)]
  rw [num_eq_mul_den, num_eq_mul_den]
  ring

lemma qmul_eq (a b : ℚ) : qmul a b = a * b := by
  have hA : ((a.den : ℚ)) ≠ 0 := by exact_mod_cast a.den_nz
  have hB : ((b.den : ℚ)) ≠ 0 := by exact_mod_cast b.den_nz
  rw [qmul, Rat.divInt_eq_div]
  push_cast
  rw [div_eq_iff (by positivity)]
  rw [num_eq_mul_den, num_eq_mul_den]
  ring

lemma qneg_eq (a : ℚ) : qneg a = -a := by
  have hA : ((a.den : ℚ)) ≠ 0 := by exact_mod_cast a.den_nz
  rw [qneg, Rat.divInt_eq_div]
  push_cast
  rw [div_eq_iff hA]
  rw [num_eq_mul_den]
  ring

lemma qdiv_eq (a b : ℚ) : qdiv a b = a / b := by
  have hA : ((a.den : ℚ)) ≠ 0 := by exact_mod_cast a.den_nz
  have hB : ((b.den : ℚ)) ≠ 0 := by exact_mod_cast b.den_nz
  rcases eq_or_ne b 0 with hb | hb
  · subst hb
    simp [qdiv]
  · have hbn : (b.num : ℚ) ≠ 0 := by
      exact_mod_cast Rat.num_ne_zero.mpr hb
    rw [qdiv, Rat.divInt_eq_div]
    push_cast
    rw [div_eq_div_iff (by positivity) hb]
    rw [num_eq_mul_den, num_eq_mul_den]
    ring

/-- Extended numeric cell value: NaN, a signed infinity, or a rational. -/
inductive Val where
  | nan : Val
  | inf : Val
  | ninf : Val
  | num : ℚ → Val
deriving DecidableEq

instance : Inhabited Val := ⟨Val.nan⟩

/-- Test for NaN. -/
def Val.isNan : Val → Bool
  | .nan => true
  | _ => false

/-- IEEE-style negation. -/
def Val.neg : Val → Val
  | .nan => .nan
  | .inf => .ninf
  | .ninf => .inf
  | .num a => .num (qneg a)

/-- IEEE-style addition (`inf + ninf = nan`, NaN propagates). -/
def Val.add : Val → Val → Val
  | .nan, _ => .nan
  | _, .nan => .nan
  | .inf, .ninf => .nan
  | .ninf, .inf => .nan
  | .inf, _ => .inf
  | _, .inf => .inf
  | .ninf, _ => .ninf
  | _, .ninf => .ninf
  | .num a, .num b => .num (qadd a b)

/-- IEEE-style subtraction. -/
def Val.sub (a b : Val) : Val := a.add b.neg

/-- IEEE-style division: NaN propagates; `x / 0` is NaN for `x = 0` and a
signed infinity for finite `x ≠ 0` (the denominator behaving as `+0`);
finite / infinite is `0`; infinite / infinite is NaN. -/
def Val.div : Val → Val → Val
  | .nan, _ => .nan
  | _, .nan => .nan
  | .inf, .inf => .nan
  | .inf, .ninf => .nan
  | .ninf, .inf => .nan
  | .ninf, .ninf => .nan
  | .inf, .num b => if b < 0 then .ninf else .inf
  | .ninf, .num b => if b < 0 then .inf else .ninf
  | .num _, .inf => .num 0
  | .num _, .ninf => .num 0
  | .num a, .num b =>
      if b = 0 then
        if a = 0 then .nan else if 0 < a then .inf else .ninf
      else .num (qdiv a b)

/-- IEEE-style strict less-than: any comparison involving NaN is false. -/
def Val.lt : Val → Val → Bool
  | .nan, _ => false
  | _, .nan => false
  | .inf, _ => false
  | .ninf, .ninf => false
  | .ninf, _ => true
  | .num _, .inf => true
  | .num _, .ninf => false
  | .num a, .num b => decide (a < b)

/-- IEEE-style strict greater-than. -/
def Val.gt (a b : Val) : Bool := Val.lt b a

/-- IEEE-style equality test: any comparison involving NaN is false. -/
def Val.eqb : Val → Val → Bool
  | .num a, .num b => decide (a = b)
  | .inf, .inf => true
  | .ninf, .ninf => true
  | _, _ => false

/-- Cell access in a series; out-of-range reads give NaN (as pandas shift
and rolling operations fill missing positions with NaN). -/
def getV (xs : List Val) (i : Nat) : Val := (xs[i]?).getD Val.nan

/-- Embeds `series.shift(-n)`: position `i` receives the value `n` rows
ahead, the final `n` positions become NaN. -/
def shiftNeg (xs : List Val) (n : Nat) : List Val :=
  (List.range xs.length).map (fun i => getV xs (i + n))

/-- The length-`H` window of positions `i + 1 - H, …, i` used by
`series.rolling(H)` at position `i`. -/
def window (xs : List Val) (i H : Nat) : List Val :=
  (List.range H).map (fun j => getV xs (i + 1 - H + j))

/-- Mean of a full rolling window: NaN as soon as one observation is
missing (pandas' default `min_periods = window`), otherwise the IEEE sum
divided by the window length. -/
def meanL (w : List Val) : Val :=
  if w.any Val.isNan then Val.nan
  else Val.div (w.foldr Val.add (Val.num 0)) (Val.num (w.length : ℚ))

/-- Embeds `series.rolling(H).mean()` with the default `min_periods`. -/
def rollingMean (H : Nat) (xs : List Val) : List Val :=
  (List.range xs.length).map (fun i =>
    if i + 1 < H then Val.nan else meanL (window xs i H))

namespace NFI

/-- Embeds `NostalgiaForInfinityX7_FreqAI.startup_candle_count`. -/
def startup_candle_count : Nat := 800

/-- Embeds `NostalgiaForInfinityX7_FreqAI.set_freqai_targets`:
`dataframe["&-s_close"] = close.shift(-label_period).rolling(label_period).mean() / close - 1`,
with `label_period` read from the external FreqAI configuration. -/
def set_freqai_targets (label_period : Nat) (close : List Val) : List Val :=
  let roll := rollingMean label_period (shiftNeg close label_period)
  (List.range close.length).map (fun i =>
    Val.sub (Val.div (getV roll i) (getV close i)) (Val.num 1))

/-- Embeds `NostalgiaForInfinityX7_FreqAI.confirm_trade_entry`.  The guard
only reads the `close` of the last analyzed candle, so the analyzed
dataframe is passed as its list of close prices; `closes.getLast?` is
`none` exactly when `len(dataframe) < 1`.  The constants `mkRat 10025 10000`
and `mkRat 9975 10000` are the source's `1.0025` and `0.9975`. -/
def confirm_trade_entry (closes : List ℚ) (rate : ℚ) (side : String) : Bool :=
  match closes.getLast? with
  | none => false
  | some c =>
    if side = "long" then
      if rate > qmul c (mkRat 10025 10000) then false else true
    else
      if rate < qmul c (mkRat 9975 10000) then false else true

/-- The prediction columns of one analyzed candle, as read by
`custom_exit` (`do_predict` and `&-s_close`). -/
structure PredRow where
  do_predict : Val
  s_close : Val
deriving DecidableEq

instance : Inhabited PredRow := ⟨⟨Val.nan, Val.nan⟩⟩

/-- Embeds `NostalgiaForInfinityX7_FreqAI.custom_exit`: the analyzed
dataframe is passed as the list of its prediction rows, `isShort` is
`trade.is_short`, and `mkRat 2 100` is the source's `0.02` profit
threshold. -/
def custom_exit (df : List PredRow) (isShort : Bool) (current_profit : ℚ) :
    Option String :=
  match df.getLast? with
  | none => none
  | some last =>
    if Val.eqb last.do_predict (Val.num 1) = false then some "ml_confidence_lost"
    else if current_profit > mkRat 2 100 then
      if isShort then
        if Val.gt last.s_close (Val.num 0) then some "ml_reversal_short" else none
      else
        if Val.lt last.s_close (Val.num 0) then some "ml_reversal_long" else none
    else none

end NFI

/-- C1 counterexample input: a single analyzed candle with close 100. -/
def oneCandle : List ℚ := [100]

/-- C1: the claim states that `confirm_trade_entry` rejects whenever fewer
than `startup_candle_count = 800` candles were analyzed.  This is false: a
single analyzed candle (1 < 800) with close 100 and a proposed long rate of
100 is accepted. -/
theorem C1_counterexample :
    oneCandle.length < NFI.startup_candle_count ∧
      NFI.confirm_trade_entry oneCandle 100 "long" = true := by
  constructor
  · decide
  · decide

/-- C1 (amended): `confirm_trade_entry` fails closed only on an empty
analyzed dataframe — with fewer than one analyzed candle it returns False
for every rate and side; for 1 to 799 candles the slippage check alone
decides. -/
theorem C1_guard_rejects_empty (closes : List ℚ) (rate : ℚ) (side : String)
    (h : closes.length < 1) :
    NFI.confirm_trade_entry closes rate side = false := by
  have hnil : closes = [] := List.length_eq_zero.mp (Nat.lt_one_iff.mp h)
  subst hnil
  rfl

/-- Witness for C1 at a concrete input: the empty dataframe is rejected. -/
theorem C1_guard_rejects_empty_witness :
    NFI.confirm_trade_entry [] 100 "long" = false :=
  C1_guard_rejects_empty [] 100 "long" (by decide)

lemma mkRat_long_tol : (mkRat 10025 10000 : ℚ) = 1.0025 := by
  rw [Rat.mkRat_eq_div]; norm_num

lemma mkRat_short_tol : (mkRat 9975 10000 : ℚ) = 0.9975 := by
  rw [Rat.mkRat_eq_div]; norm_num

lemma mkRat_profit_thr : (mkRat 2 100 : ℚ) = 0.02 := by
  rw [Rat.mkRat_eq_div]; norm_num

/-- C5: with at least one analyzed candle of last close `c`, the guard
rejects a long exactly when `rate > c * 1.0025` and a short exactly when
`rate < c * 0.9975`, accepting otherwise; in particular with `c = 100` a
long rate of 100.30 is rejected and 100.20 is accepted. -/
theorem C5_slippage_guard (closes : List ℚ) (c rate : ℚ)
    (h : closes.getLast? = some c) :
    (NFI.confirm_trade_entry closes rate "long" = false ↔ rate > c * 1.0025) ∧
    (NFI.confirm_trade_entry closes rate "short" = false ↔ rate < c * 0.9975) ∧
    NFI.confirm_trade_entry oneCandle 100.30 "long" = false ∧
    NFI.confirm_trade_entry oneCandle 100.20 "long" = true := by
  have h30 : (100.30 : ℚ) = mkRat 10030 100 := by rw [Rat.mkRat_eq_div]; norm_num
  have h20 : (100.20 : ℚ) = mkRat 10020 100 := by rw [Rat.mkRat_eq_div]; norm_num
  have hlong : qmul c (mkRat 10025 10000) = c * 1.0025 := by
    rw [qmul_eq, mkRat_long_tol]
  have hshort : qmul c (mkRat 9975 10000) = c * 0.9975 := by
    rw [qmul_eq, mkRat_short_tol]
  refine ⟨?_, ?_, by rw [h30]; decide, by rw [h20]; decide⟩
  · unfold NFI.confirm_trade_entry
    rw [h]
    simp only [if_pos rfl, hlong]
    by_cases hr : rate > c * 1.0025
    · simp [hr]
    · simp [hr]
  · unfold NFI.confirm_trade_entry
    rw [h]
    have hside : ("short" = "long") = False := by simp
    simp only [hside, if_false, hshort]
    by_cases hr : rate < c * 0.9975
    · simp [hr]
    · simp [hr]

/-- Witness for C5 at a concrete input: one candle with close 100, rate
100.30 on the long side is rejected. -/
theorem C5_slippage_guard_witness :
    NFI.confirm_trade_entry oneCandle 100.30 "long" = false ∧
      (100.30 : ℚ) > 100 * 1.0025 :=
  ⟨(C5_slippage_guard oneCandle 100 100.30 (by decide)).1.mpr (by norm_num),
    by norm_num⟩

/-- C6: `custom_exit` returns `ml_confidence_lost` whenever the last
candle's `do_predict ≠ 1`, taking precedence over the reversal exit even
when the profit threshold is met and the prediction has reversed; it
returns a reversal code exactly when `do_predict = 1`, profit exceeds 0.02
and the prediction's sign opposes the side; and it returns no override in
every other case, including the empty dataframe. -/
theorem C6_custom_exit (df : List NFI.PredRow) (last : NFI.PredRow)
    (isShort : Bool) (p : ℚ) (h : df.getLast? = some last) :
    (Val.eqb last.do_predict (Val.num 1) = false →
      NFI.custom_exit df isShort p = some "ml_confidence_lost") ∧
    (NFI.custom_exit df isShort p = some "ml_reversal_short" ↔
      Val.eqb last.do_predict (Val.num 1) = true ∧ p > 0.02 ∧ isShort = true ∧
        Val.gt last.s_close (Val.num 0) = true) ∧
    (NFI.custom_exit df isShort p = some "ml_reversal_long" ↔
      Val.eqb last.do_predict (Val.num 1) = true ∧ p > 0.02 ∧ isShort = false ∧
        Val.lt last.s_close (Val.num 0) = true) ∧
    (Val.eqb last.do_predict (Val.num 1) = true →
      (¬ p > 0.02 ∨
        (isShort = true ∧ Val.gt last.s_close (Val.num 0) = false) ∨
        (isShort = false ∧ Val.lt last.s_close (Val.num 0) = false)) →
      NFI.custom_exit df isShort p = none) ∧
    NFI.custom_exit [] isShort p = none := by
  have hnil : NFI.custom_exit [] isShort p = none := rfl
  refine ⟨?_, ?_, ?_, ?_, hnil⟩ <;>
    · unfold NFI.custom_exit
      rw [h]
      simp only [mkRat_profit_thr]
      cases hv : Val.eqb last.do_predict (Val.num 1) <;>
        by_cases hp : p > (0.02 : ℚ) <;>
          cases hi : isShort <;>
            cases hgt : Val.gt last.s_close (Val.num 0) <;>
              cases hlt : Val.lt last.s_close (Val.num 0) <;>
                simp [hv, hp, hi, hgt, hlt]

/-- Witness for C6 at a concrete input: one candle with `do_predict = 0`
inside a profitable long position whose prediction has reversed; the
confidence-loss code is returned, not the reversal code. -/
theorem C6_custom_exit_witness :
    NFI.custom_exit [⟨Val.num 0, Val.num (-1)⟩] false 0.03 =
      some "ml_confidence_lost" :=
  (C6_custom_exit [⟨Val.num 0, Val.num (-1)⟩] ⟨Val.num 0, Val.num (-1)⟩
      false 0.03 rfl).1 (by decide)

/-! Series lemmas used for the target-labeling claims. -/

lemma getV_map_range (f : Nat → Val) (n i : Nat) (h : i < n) :
    getV ((List.range n).map f) i = f i := by
  simp [getV, List.getElem?_map, List.getElem?_range, h]

lemma getV_out (xs : List Val) (i : Nat) (h : xs.length ≤ i) : getV xs i = Val.nan := by
  simp [getV, List.getElem?_eq_none h]

lemma getV_map_num (closes : List ℚ) (i : Nat) (h : i < closes.length) :
    getV (closes.map Val.num) i = Val.num (closes.getD i 0) := by
  simp [getV, List.getElem?_map, List.getD_eq_getElem?_getD, List.getElem?_eq_getElem h]

@[simp] lemma shiftNeg_length (xs : List Val) (n : Nat) :
    (shiftNeg xs n).length = xs.length := by
  simp [shiftNeg]

lemma getV_shiftNeg (xs : List Val) (n i : Nat) (h : i < xs.length) :
    getV (shiftNeg xs n) i = getV xs (i + n) := by
  rw [shiftNeg, getV_map_range _ _ _ h]

@[simp] lemma rollingMean_length (H : Nat) (xs : List Val) :
    (rollingMean H xs).length = xs.length := by
  simp [rollingMean]

lemma getV_rollingMean (H : Nat) (xs : List Val) (i : Nat) (h : i < xs.length) :
    getV (rollingMean H xs) i =
      if i + 1 < H then Val.nan else meanL (window xs i H) := by
  rw [rollingMean, getV_map_range _ _ _ h]

lemma foldr_add_map_num (l : List ℚ) :
    (l.map Val.num).foldr Val.add (Val.num 0) = Val.num l.sum := by
  induction l with
  | nil => simp
  | cons a t ih => simp [Val.add, ih, qadd_eq]

lemma any_isNan_map_num (l : List ℚ) : (l.map Val.num).any Val.isNan = false := by
  induction l with
  | nil => rfl
  | cons a t ih => simp [List.any_cons, Val.isNan, ih]

lemma Val.div_num_num (a b : ℚ) (hb : b ≠ 0) :
    Val.div (Val.num a) (Val.num b) = Val.num (a / b) := by
  simp [Val.div, hb, qdiv_eq]

lemma Val.sub_num_num (a b : ℚ) :
    Val.sub (Val.num a) (Val.num b) = Val.num (a - b) := by
  simp [Val.sub, Val.add, Val.neg, qadd_eq, qneg_eq, sub_eq_add_neg]

lemma Val.div_nan_left (b : Val) : Val.div Val.nan b = Val.nan := by
  cases b <;> rfl

lemma Val.sub_nan_left (b : Val) : Val.sub Val.nan b = Val.nan := by
  cases b <;> rfl

lemma meanL_map_num (l : List ℚ) (h : l ≠ []) :
    meanL (l.map Val.num) = Val.num (l.sum / l.length) := by
  have h0 : l.length ≠ 0 := fun hl => h (List.length_eq_zero.mp hl)
  have hlen : ((l.length : ℚ)) ≠ 0 := by exact_mod_cast h0
  rw [meanL, any_isNan_map_num]
  simp only [Bool.false_eq_true, if_false, foldr_add_map_num, List.length_map]
  exact Val.div_num_num _ _ hlen

lemma meanL_nan_of_mem (w : List Val) (h : Val.nan ∈ w) : meanL w = Val.nan := by
  have ha : w.any Val.isNan = true := List.any_eq_true.mpr ⟨Val.nan, h, rfl⟩
  simp [meanL, ha]

lemma window_shiftNeg_eq (closes : List ℚ) (S W i : Nat)
    (h1 : W ≤ i + 1) (h2 : i + S < closes.length) :
    window (shiftNeg (closes.map Val.num) S) i W =
      ((List.range W).map (fun j => closes.getD (i + 1 - W + j + S) 0)).map Val.num := by
  rw [window, List.map_map]
  apply List.map_congr_left
  intro j hj
  have hj' : j < W := List.mem_range.mp hj
  have hik : i + 1 - W + j < (closes.map Val.num).length := by
    simp only [List.length_map]
    omega
  simp only [Function.comp]
  rw [getV_shiftNeg _ _ _ hik]
  exact getV_map_num closes _ (by omega)

lemma getV_set_freqai_targets (H : Nat) (close : List Val) (i : Nat)
    (h : i < close.length) :
    getV (NFI.set_freqai_targets H close) i =
      Val.sub
        (Val.div (getV (rollingMean H (shiftNeg close H)) i) (getV close i))
        (Val.num 1) := by
  rw [NFI.set_freqai_targets]
  exact getV_map_range _ _ _ h

namespace Hybrid

/-- Embeds `NostalgiaForInfinityX7_Hybrid.set_freqai_targets`:
`dataframe["&-s_close"] = dataframe["close"].shift(-24).rolling(5).mean()`
(shift amount 24 and smoothing width 5 hard-coded, no normalization). -/
def set_freqai_targets (close : List Val) : List Val :=
  rollingMean 5 (shiftNeg close 24)

end Hybrid

/-- Formula asserted by the specification for the target label: the mean of
close over the `H` candles starting one candle after row `i`, divided by the
close at row `i`, minus 1.  This definition follows the spec's words and is
compared against the embedded code. -/
def specTarget (H : Nat) (closes : List ℚ) (i : Nat) : ℚ :=
  ((List.range H).map (fun j => closes.getD (i + 1 + j) 0)).sum / H
    / closes.getD i 0 - 1

/-- C2 counterexample input: 29 candles of constant close 2. -/
def constClose : List ℚ := List.replicate 29 2

/-- C2: the claim states that in both strategy variants the `&-s_close`
target at every row with a full forward window equals the forward-mean
formula.  This is false for the Hybrid variant: on 29 candles of constant
close 2, row 4 has a full forward window for the configured horizon 24, the
formula gives 0, but the Hybrid code (which hard-codes shift 24 and window
5 and does not normalize by the current close) writes 2. -/
theorem C2_counterexample :
    getV (Hybrid.set_freqai_targets (constClose.map Val.num)) 4 = Val.num 2 ∧
    specTarget 24 constClose 4 = 0 ∧
    Val.num 2 ≠ Val.num (specTarget 24 constClose 4) := by
  have hs : specTarget 24 constClose 4 = 0 := by
    have hl : ((List.range 24).map (fun j => constClose.getD (4 + 1 + j) 0)) =
        List.replicate 24 2 := by decide
    have hc : constClose.getD 4 0 = 2 := by decide
    rw [specTarget, hl, List.sum_replicate, hc]
    norm_num
  refine ⟨by decide, hs, ?_⟩
  rw [hs]
  decide

/-- C2 (amended): in the FreqAI variant, for every row `i` with
`H ≤ i + 1`, a full forward window and a nonzero current close, the target
equals the spec formula with `H` the externally configured `label_period`;
rows with `i + 1 < H` (despite having full forward data) and the final `H`
rows are NaN.  The Hybrid variant instead writes the unnormalized mean of
close over the five candles ending 24 candles ahead, with both widths
hard-coded. -/
theorem C2_targets (H : Nat) (closes : List ℚ) (i : Nat) (hH : 0 < H) :
    (H ≤ i + 1 → i + H < closes.length → closes.getD i 0 ≠ 0 →
      getV (NFI.set_freqai_targets H (closes.map Val.num)) i =
        Val.num (specTarget H closes i)) ∧
    (i < closes.length → closes.length ≤ i + H →
      getV (NFI.set_freqai_targets H (closes.map Val.num)) i = Val.nan) ∧
    (i + 1 < H → i < closes.length →
      getV (NFI.set_freqai_targets H (closes.map Val.num)) i = Val.nan) ∧
    (4 ≤ i → i + 24 < closes.length →
      getV (Hybrid.set_freqai_targets (closes.map Val.num)) i =
        Val.num (((List.range 5).map (fun j => closes.getD (i + 20 + j) 0)).sum / 5)) := by
  refine ⟨?_, ?_, ?_, ?_⟩
  · intro h1 h2 h3
    have hi : i < closes.length := by omega
    have hi' : i < (closes.map Val.num).length := by simpa using hi
    rw [getV_set_freqai_targets _ _ _ hi']
    rw [getV_rollingMean _ _ _ (by simpa using hi)]
    rw [if_neg (by omega)]
    rw [window_shiftNeg_eq closes H H i h1 h2]
    have hfix : ((List.range H).map (fun j => closes.getD (i + 1 - H + j + H) 0)) =
        ((List.range H).map (fun j => closes.getD (i + 1 + j) 0)) := by
      apply List.map_congr_left
      intro j hj
      have : i + 1 - H + j + H = i + 1 + j := by
        have := List.mem_range.mp hj
        omega
      rw [this]
    rw [hfix]
    have hne : ((List.range H).map (fun j => closes.getD (i + 1 + j) 0)) ≠ [] := by
      simp [List.range_eq_nil]
      omega
    rw [meanL_map_num _ hne]
    rw [getV_map_num closes i hi]
    simp only [List.length_map, List.length_range]
    rw [Val.div_num_num _ _ h3, Val.sub_num_num]
    rw [specTarget]
  · intro hi hend
    have hi' : i < (closes.map Val.num).length := by simpa using hi
    rw [getV_set_freqai_targets _ _ _ hi']
    rw [getV_rollingMean _ _ _ (by simpa using hi)]
    by_cases hw : i + 1 < H
    · rw [if_pos hw, Val.div_nan_left, Val.sub_nan_left]
    · rw [if_neg hw]
      have hmem : Val.nan ∈ window (shiftNeg (closes.map Val.num) H) i H := by
        rw [window]
        refine List.mem_map.mpr ⟨H - 1, List.mem_range.mpr (by omega), ?_⟩
        have hidx : i + 1 - H + (H - 1) = i := by omega
        rw [hidx]
        rw [getV_shiftNeg _ _ _ (by simpa using hi)]
        exact getV_out _ _ (by simpa using hend)
      rw [meanL_nan_of_mem _ hmem, Val.div_nan_left, Val.sub_nan_left]
  · intro hw hi
    have hi' : i < (closes.map Val.num).length := by simpa using hi
    rw [getV_set_freqai_targets _ _ _ hi']
    rw [getV_rollingMean _ _ _ (by simpa using hi)]
    rw [if_pos hw, Val.div_nan_left, Val.sub_nan_left]
  · intro h4 h5
    have hi : i < closes.length := by omega
    rw [Hybrid.set_freqai_targets]
    rw [getV_rollingMean _ _ _ (by simpa using hi)]
    rw [if_neg (by omega)]
    rw [window_shiftNeg_eq closes 24 5 i (by omega) h5]
    have hfix : ((List.range 5).map (fun j => closes.getD (i + 1 - 5 + j + 24) 0)) =
        ((List.range 5).map (fun j => closes.getD (i + 20 + j) 0)) := by
      apply List.map_congr_left
      intro j hj
      have : i + 1 - 5 + j + 24 = i + 20 + j := by
        have := List.mem_range.mp hj
        omega
      rw [this]
    rw [hfix]
    have hne : ((List.range 5).map (fun j => closes.getD (i + 20 + j) 0)) ≠ [] := by
      simp [List.range_eq_nil]
    rw [meanL_map_num _ hne]
    simp only [List.length_map, List.length_range]
    norm_num

/-- Witness for C2 at a concrete input: closes 1,2,3,4,5 with horizon 2 at
row 1 — a full forward window, nonzero close — give the spec formula
value. -/
theorem C2_targets_witness :
    0 < 2 ∧
      getV (NFI.set_freqai_targets 2 (([1, 2, 3, 4, 5] : List ℚ).map Val.num)) 1 =
        Val.num (specTarget 2 [1, 2, 3, 4, 5] 1) :=
  ⟨by decide,
    (C2_targets 2 [1, 2, 3, 4, 5] 1 (by decide)).1 (by decide) (by decide) (by decide)⟩

namespace NFI

/-- The indicator and prediction columns of one analyzed candle read by
`populate_entry_trend` and `populate_exit_trend` (`do_predict`,
`&-s_close`, `EMA_12`, `EMA_26`, `RSI_14`, `bb_width`, `volume`). -/
structure Row where
  do_predict : Val
  s_close : Val
  ema_12 : Val
  ema_26 : Val
  rsi_14 : Val
  bb_width : Val
  volume : Val
deriving DecidableEq

instance : Inhabited Row :=
  ⟨{ do_predict := Val.nan, s_close := Val.nan, ema_12 := Val.nan,
     ema_26 := Val.nan, rsi_14 := Val.nan, bb_width := Val.nan,
     volume := Val.nan }⟩

/-- The conjunction of the five `enter_long_conditions` of
`populate_entry_trend` (`reduce(lambda x, y: x & y, ...)`); the constants
`mkRat 1 10000` and `mkRat 15 1000` are the source's `0.0001` and
`0.015`. -/
def enter_long_conditions (r : Row) : Bool :=
  Val.eqb r.do_predict (Val.num 1) &&
  Val.gt r.s_close (Val.num (mkRat 1 10000)) &&
  (Val.gt r.ema_12 r.ema_26 || Val.lt r.rsi_14 (Val.num 35)) &&
  Val.gt r.bb_width (Val.num (mkRat 15 1000)) &&
  Val.gt r.volume (Val.num 0)

/-- The entry decision columns created by `populate_entry_trend`. -/
structure EntryOut where
  enter_long : Val
  enter_short : Val
  enter_tag : Option String
deriving DecidableEq

instance : Inhabited EntryOut :=
  ⟨{ enter_long := Val.nan, enter_short := Val.nan, enter_tag := none }⟩

/-- Embeds `NostalgiaForInfinityX7_FreqAI.populate_entry_trend`:
`.loc[conjunction, ['enter_long', 'enter_tag']] = (1, 'ml_long')` creates
the columns with 1/`'ml_long'` on the rows satisfying the conjunction and
missing values (NaN/None) elsewhere; the short-entry block is commented
out in the source, so `enter_short` is never written. -/
def populate_entry_trend (df : List Row) : List EntryOut :=
  df.map (fun r =>
    if enter_long_conditions r then
      { enter_long := Val.num 1, enter_short := Val.nan, enter_tag := some "ml_long" }
    else
      { enter_long := Val.nan, enter_short := Val.nan, enter_tag := none })

/-- The conjunction of the `exit_long_conditions` of `populate_exit_trend`;
`mkRat (-5) 1000` is the source's `-0.005`. -/
def exit_long_conditions (r : Row) : Bool :=
  Val.eqb r.do_predict (Val.num 1) &&
  (Val.lt r.s_close (Val.num (mkRat (-5) 1000)) || Val.gt r.rsi_14 (Val.num 80))

/-- The conjunction of the `exit_short_conditions` of `populate_exit_trend`;
`mkRat 5 1000` is the source's `0.005`. -/
def exit_short_conditions (r : Row) : Bool :=
  Val.eqb r.do_predict (Val.num 1) &&
  (Val.gt r.s_close (Val.num (mkRat 5 1000)) || Val.lt r.rsi_14 (Val.num 20))

/-- The exit decision columns created by `populate_exit_trend`. -/
structure ExitOut where
  exit_long : Val
  exit_short : Val
deriving DecidableEq

instance : Inhabited ExitOut := ⟨{ exit_long := Val.nan, exit_short := Val.nan }⟩

/-- Embeds `NostalgiaForInfinityX7_FreqAI.populate_exit_trend`. -/
def populate_exit_trend (df : List Row) : List ExitOut :=
  df.map (fun r =>
    { exit_long := if exit_long_conditions r then Val.num 1 else Val.nan,
      exit_short := if exit_short_conditions r then Val.num 1 else Val.nan })

end NFI

namespace Hybrid

/-- One row of the Hybrid dataframe after the wrapped
`NostalgiaForInfinityX7` strategy (not part of this repository) produced
its entry/exit columns and the FreqAI engine attached `do_predict` and
`&-s_close`.  `ml_upside` holds the `ml_upside` column; it is NaN until
this layer computes it.  The embedding models the case in which the
prediction columns and the wrapped strategy's signal columns are present
in the dataframe (the guards `'&-s_close' in dataframe.columns` etc. of
the source hold), which is the case the claims describe. -/
structure Row where
  close : Val
  s_close : Val
  do_predict : Val
  enter_long : Val
  enter_short : Val
  exit_long : Val
  exit_short : Val
  exit_tag : Option String
  ml_upside : Val
deriving DecidableEq

instance : Inhabited Row :=
  ⟨{ close := Val.nan, s_close := Val.nan, do_predict := Val.nan,
     enter_long := Val.nan, enter_short := Val.nan, exit_long := Val.nan,
     exit_short := Val.nan, exit_tag := none, ml_upside := Val.nan }⟩

/-- Embeds the class attribute `can_short = True`. -/
def can_short : Bool := true

/-- Embeds the class attribute `ml_exit_on_confidence_loss = True`. -/
def ml_exit_on_confidence_loss : Bool := true

/-- Embeds `ml_upside = (dataframe['&-s_close'] - dataframe['close']) / dataframe['close']`. -/
def mlUpside (r : Row) : Val := Val.div (Val.sub r.s_close r.close) r.close

/-- Writing the `ml_upside` column on one row. -/
def withUpside (r : Row) : Row := { r with ml_upside := mlUpside r }

/-- pandas `Series.sum()` over a column: NaN observations are skipped
(default `skipna`), infinities propagate. -/
def colSum : List Val → Val
  | [] => Val.num 0
  | v :: t => if v.isNan then colSum t else Val.add v (colSum t)

/-- The test `dataframe[col].sum() > 0` of the source. -/
def sumPos (f : Row → Val) (df : List Row) : Bool :=
  Val.gt (colSum (df.map f)) (Val.num 0)

/-- Embeds `conditions_ml_long`: `do_predict == 1` and
`ml_upside > ml_confidence_long.value / 100.0`. -/
def conditions_ml_long (confL : ℚ) (r : Row) : Bool :=
  Val.eqb r.do_predict (Val.num 1) &&
  Val.gt r.ml_upside (Val.num (qdiv confL 100))

/-- Embeds `conditions_ml_short`: `do_predict == 1` and
`ml_upside < -ml_confidence_short.value / 100.0`. -/
def conditions_ml_short (confS : ℚ) (r : Row) : Bool :=
  Val.eqb r.do_predict (Val.num 1) &&
  Val.lt r.ml_upside (Val.num (qneg (qdiv confS 100)))

/-- Embeds the long-entry filter block: if the `enter_long` column has a
positive sum, rows not satisfying `conditions_ml_long` get
`enter_long = 0` (`.loc[~conditions_ml_long, 'enter_long'] = 0`). -/
def entryLongPass (confL : ℚ) (df : List Row) : List Row :=
  if sumPos (fun r => r.enter_long) df then
    df.map (fun r =>
      if conditions_ml_long confL r then r else { r with enter_long := Val.num 0 })
  else df

/-- Embeds the short-entry filter block (guarded by `can_short` and run
only when the `enter_short` column has a positive sum). -/
def entryShortPass (confS : ℚ) (df : List Row) : List Row :=
  if can_short then
    if sumPos (fun r => r.enter_short) df then
      df.map (fun r =>
        if conditions_ml_short confS r then r else { r with enter_short := Val.num 0 })
    else df
  else df

/-- Embeds `NostalgiaForInfinityX7_Hybrid.populate_entry_trend` in the
prediction-columns-present case: the input `df` is the wrapped strategy's
`populate_entry_trend` output; the `ml_upside` column is computed, then
the long and short filters run in order. -/
def populate_entry_trend (confL confS : ℚ) (df : List Row) : List Row :=
  entryShortPass confS (entryLongPass confL (df.map withUpside))

/-- Embeds `conditions_ml_exit_long`: `do_predict == 1` and
`ml_upside < ml_exit_confidence_threshold.value / 100.0`. -/
def conditions_ml_exit_long (thr : ℚ) (r : Row) : Bool :=
  Val.eqb r.do_predict (Val.num 1) &&
  Val.lt r.ml_upside (Val.num (qdiv thr 100))

/-- Embeds `conditions_ml_exit_short`: `do_predict == 1` and
`ml_upside > -ml_exit_confidence_threshold.value / 100.0`. -/
def conditions_ml_exit_short (thr : ℚ) (r : Row) : Bool :=
  Val.eqb r.do_predict (Val.num 1) &&
  Val.gt r.ml_upside (Val.num (qneg (qdiv thr 100)))

/-- Embeds the forced long-exit block: rows satisfying
`conditions_ml_exit_long` get `exit_long = 1` and
`exit_tag = 'ml_confidence_lost'`. -/
def exitLongPass (thr : ℚ) (df : List Row) : List Row :=
  df.map (fun r =>
    if conditions_ml_exit_long thr r then
      { r with exit_long := Val.num 1, exit_tag := some "ml_confidence_lost" }
    else r)

/-- Embeds the forced short-exit block (guarded by `can_short`): rows
satisfying `conditions_ml_exit_short` get `exit_short = 1` and
`exit_tag = 'ml_confidence_lost_short'`, overwriting any tag the long
block wrote. -/
def exitShortPass (thr : ℚ) (df : List Row) : List Row :=
  if can_short then
    df.map (fun r =>
      if conditions_ml_exit_short thr r then
        { r with exit_short := Val.num 1, exit_tag := some "ml_confidence_lost_short" }
      else r)
  else df

/-- Embeds `NostalgiaForInfinityX7_Hybrid.populate_exit_trend` in the
prediction-columns-present case: the input `df` is the wrapped strategy's
`populate_exit_trend` output; `hasUpsideCol` records whether the
`ml_upside` column is already present (the source recomputes it when it is
absent), then the forced long and short exits run in order. -/
def populate_exit_trend (thr : ℚ) (hasUpsideCol : Bool) (df : List Row) : List Row :=
  if ml_exit_on_confidence_loss then
    exitShortPass thr (exitLongPass thr
      (if hasUpsideCol then df else df.map withUpside))
  else df

end Hybrid

/-! Helper lemmas about row access and the Hybrid filter passes. -/

lemma getD_map_row {α β : Type} [Inhabited α] [Inhabited β] (f : α → β)
    (l : List α) (i : Nat) (h : i < l.length) :
    (l.map f).getD i default = f (l.getD i default) := by
  simp [List.getD_eq_getElem?_getD, List.getElem?_map, List.getElem?_eq_getElem h]

lemma mkRat_entry_thr : (mkRat 1 10000 : ℚ) = 0.0001 := by
  rw [Rat.mkRat_eq_div]; norm_num

lemma mkRat_bb_thr : (mkRat 15 1000 : ℚ) = 0.015 := by
  rw [Rat.mkRat_eq_div]; norm_num

lemma enter_long_conditions_iff (r : NFI.Row) :
    NFI.enter_long_conditions r = true ↔
      (Val.eqb r.do_predict (Val.num 1) = true ∧
       Val.gt r.s_close (Val.num 0.0001) = true ∧
       (Val.gt r.ema_12 r.ema_26 = true ∨ Val.lt r.rsi_14 (Val.num 35) = true) ∧
       Val.gt r.bb_width (Val.num 0.015) = true ∧
       Val.gt r.volume (Val.num 0) = true) := by
  rw [NFI.enter_long_conditions, mkRat_entry_thr, mkRat_bb_thr]
  simp [Bool.and_eq_true, Bool.or_eq_true, and_assoc]

/-- C3: the primary strategy's `populate_entry_trend` writes
`enter_long = 1` with entry tag `'ml_long'` on exactly the rows where all
five conditions hold (`do_predict = 1`, prediction above `0.0001`,
`EMA_12 > EMA_26` or `RSI_14 < 35`, `bb_width > 0.015`, positive volume),
and it never writes `enter_short`. -/
theorem C3_entry_long (df : List NFI.Row) (i : Nat) (h : i < df.length) :
    ((((NFI.populate_entry_trend df).getD i default).enter_long = Val.num 1 ∧
      ((NFI.populate_entry_trend df).getD i default).enter_tag = some "ml_long") ↔
        (Val.eqb (df.getD i default).do_predict (Val.num 1) = true ∧
         Val.gt (df.getD i default).s_close (Val.num 0.0001) = true ∧
         (Val.gt (df.getD i default).ema_12 (df.getD i default).ema_26 = true ∨
           Val.lt (df.getD i default).rsi_14 (Val.num 35) = true) ∧
         Val.gt (df.getD i default).bb_width (Val.num 0.015) = true ∧
         Val.gt (df.getD i default).volume (Val.num 0) = true)) ∧
    ((NFI.populate_entry_trend df).getD i default).enter_short = Val.nan := by
  rw [NFI.populate_entry_trend, getD_map_row _ _ _ h, ← enter_long_conditions_iff]
  set r := df.getD i default with hr
  by_cases hc : NFI.enter_long_conditions r = true
  · simp [hc]
  · simp [hc]

/-- C3 witness row: all five entry conditions hold. -/
def c3row : NFI.Row :=
  { do_predict := Val.num 1, s_close := Val.num (mkRat 1 100),
    ema_12 := Val.num 2, ema_26 := Val.num 1, rsi_14 := Val.num 50,
    bb_width := Val.num (mkRat 2 100), volume := Val.num 5 }

/-- Witness for C3 at a concrete input. -/
theorem C3_entry_long_witness :
    ((((NFI.populate_entry_trend [c3row]).getD 0 default).enter_long = Val.num 1 ∧
      ((NFI.populate_entry_trend [c3row]).getD 0 default).enter_tag = some "ml_long") ↔
        (Val.eqb ([c3row].getD 0 default).do_predict (Val.num 1) = true ∧
         Val.gt ([c3row].getD 0 default).s_close (Val.num 0.0001) = true ∧
         (Val.gt ([c3row].getD 0 default).ema_12 ([c3row].getD 0 default).ema_26 = true ∨
           Val.lt ([c3row].getD 0 default).rsi_14 (Val.num 35) = true) ∧
         Val.gt ([c3row].getD 0 default).bb_width (Val.num 0.015) = true ∧
         Val.gt ([c3row].getD 0 default).volume (Val.num 0) = true)) ∧
    ((NFI.populate_entry_trend [c3row]).getD 0 default).enter_short = Val.nan :=
  C3_entry_long [c3row] 0 (by decide)

/-- A wrapped-strategy signal cell: the freqtrade contract for the entry
and exit columns is a 0/1 flag, or missing (NaN). -/
def signal01 (v : Val) : Prop := v = Val.num 0 ∨ v = Val.num 1 ∨ v = Val.nan

instance (v : Val) : Decidable (signal01 v) :=
  inferInstanceAs (Decidable (v = Val.num 0 ∨ v = Val.num 1 ∨ v = Val.nan))

lemma colSum_signal01 (l : List Val) (h : ∀ v ∈ l, signal01 v) :
    ∃ q : ℚ, Hybrid.colSum l = Val.num q ∧ 0 ≤ q ∧ (Val.num 1 ∈ l → 1 ≤ q) := by
  induction l with
  | nil => exact ⟨0, rfl, le_refl 0, by simp⟩
  | cons v t ih =>
    obtain ⟨q, hq, hq0, hq1⟩ := ih (fun x hx => h x (List.mem_cons_of_mem v hx))
    rcases h v (List.mem_cons_self v t) with h0 | h1 | hn
    · subst h0
      refine ⟨q, ?_, hq0, ?_⟩
      · simp [Hybrid.colSum, Val.isNan, hq, Val.add, qadd_eq]
      · intro hm
        rcases List.mem_cons.mp hm with he | ht
        · exact absurd he (by decide)
        · exact hq1 ht
    · subst h1
      refine ⟨1 + q, ?_, by linarith, fun _ => by linarith⟩
      simp [Hybrid.colSum, Val.isNan, hq, Val.add, qadd_eq]
    · subst hn
      refine ⟨q, ?_, hq0, ?_⟩
      · simp [Hybrid.colSum, Val.isNan, hq]
      · intro hm
        rcases List.mem_cons.mp hm with he | ht
        · exact absurd he (by decide)
        · exact hq1 ht

lemma getD_eq_getElem {α : Type} [Inhabited α] (l : List α) (i : Nat)
    (h : i < l.length) : l.getD i default = l[i] := by
  simp [List.getD_eq_getElem?_getD, List.getElem?_eq_getElem h]

lemma sumPos_of_one (f : Hybrid.Row → Val) (df : List Hybrid.Row)
    (h01 : ∀ r ∈ df, signal01 (f r)) (i : Nat) (h : i < df.length)
    (h1 : f (df.getD i default) = Val.num 1) :
    Hybrid.sumPos f df = true := by
  obtain ⟨q, hq, hq0, hq1⟩ := colSum_signal01 (df.map f) (by
    intro v hv
    obtain ⟨r, hr, hrv⟩ := List.mem_map.mp hv
    exact hrv ▸ h01 r hr)
  have hmem : Val.num 1 ∈ df.map f := by
    refine List.mem_map.mpr ⟨df.getD i default, ?_, h1⟩
    rw [getD_eq_getElem _ _ h]
    exact List.getElem_mem h
  have hq2 : 1 ≤ q := hq1 hmem
  rw [Hybrid.sumPos, hq]
  simp [Val.gt, Val.lt]
  linarith

@[simp] lemma entryLongPass_length (confL : ℚ) (df : List Hybrid.Row) :
    (Hybrid.entryLongPass confL df).length = df.length := by
  rw [Hybrid.entryLongPass]; split <;> simp

@[simp] lemma entryShortPass_length (confS : ℚ) (df : List Hybrid.Row) :
    (Hybrid.entryShortPass confS df).length = df.length := by
  rw [Hybrid.entryShortPass]
  split
  · split <;> simp
  · rfl

lemma entryLongPass_getD (confL : ℚ) (df : List Hybrid.Row) (i : Nat)
    (h : i < df.length) :
    (Hybrid.entryLongPass confL df).getD i default =
      if Hybrid.sumPos (fun r => r.enter_long) df = true then
        (if Hybrid.conditions_ml_long confL (df.getD i default) = true
         then df.getD i default
         else { df.getD i default with enter_long := Val.num 0 })
      else df.getD i default := by
  rw [Hybrid.entryLongPass]
  by_cases hs : Hybrid.sumPos (fun r => r.enter_long) df = true
  · rw [if_pos hs, if_pos hs, getD_map_row _ _ _ h]
  · rw [if_neg hs, if_neg hs]

lemma entryShortPass_getD (confS : ℚ) (df : List Hybrid.Row) (i : Nat)
    (h : i < df.length) :
    (Hybrid.entryShortPass confS df).getD i default =
      if Hybrid.sumPos (fun r => r.enter_short) df = true then
        (if Hybrid.conditions_ml_short confS (df.getD i default) = true
         then df.getD i default
         else { df.getD i default with enter_short := Val.num 0 })
      else df.getD i default := by
  have hcs : Hybrid.can_short = true := rfl
  rw [Hybrid.entryShortPass, if_pos hcs]
  by_cases hs : Hybrid.sumPos (fun r => r.enter_short) df = true
  · rw [if_pos hs, if_pos hs, getD_map_row _ _ _ h]
  · rw [if_neg hs, if_neg hs]

lemma entryShortPass_enter_long (confS : ℚ) (df : List Hybrid.Row) (i : Nat)
    (h : i < df.length) :
    ((Hybrid.entryShortPass confS df).getD i default).enter_long =
      (df.getD i default).enter_long := by
  rw [entryShortPass_getD confS df i h]
  by_cases hs : Hybrid.sumPos (fun r => r.enter_short) df = true
  · rw [if_pos hs]
    by_cases hc : Hybrid.conditions_ml_short confS (df.getD i default) = true
    · rw [if_pos hc]
    · rw [if_neg hc]
  · rw [if_neg hs]

lemma entryShortPass_ml_upside (confS : ℚ) (df : List Hybrid.Row) (i : Nat)
    (h : i < df.length) :
    ((Hybrid.entryShortPass confS df).getD i default).ml_upside =
      (df.getD i default).ml_upside := by
  rw [entryShortPass_getD confS df i h]
  by_cases hs : Hybrid.sumPos (fun r => r.enter_short) df = true
  · rw [if_pos hs]
    by_cases hc : Hybrid.conditions_ml_short confS (df.getD i default) = true
    · rw [if_pos hc]
    · rw [if_neg hc]
  · rw [if_neg hs]

lemma entryLongPass_ml_upside (confL : ℚ) (df : List Hybrid.Row) (i : Nat)
    (h : i < df.length) :
    ((Hybrid.entryLongPass confL df).getD i default).ml_upside =
      (df.getD i default).ml_upside := by
  rw [entryLongPass_getD confL df i h]
  by_cases hs : Hybrid.sumPos (fun r => r.enter_long) df = true
  · rw [if_pos hs]
    by_cases hc : Hybrid.conditions_ml_long confL (df.getD i default) = true
    · rw [if_pos hc]
    · rw [if_neg hc]
  · rw [if_neg hs]

lemma entryLongPass_enter_short_col (confL : ℚ) (df : List Hybrid.Row) :
    (Hybrid.entryLongPass confL df).map (fun r => r.enter_short) =
      df.map (fun r => r.enter_short) := by
  rw [Hybrid.entryLongPass]
  by_cases hs : Hybrid.sumPos (fun r => r.enter_long) df = true
  · rw [if_pos hs, List.map_map]
    apply List.map_congr_left
    intro r _
    by_cases hc : Hybrid.conditions_ml_long confL r = true
    · simp [Function.comp, hc]
    · simp [Function.comp, hc]
  · rw [if_neg hs]

lemma entryLongPass_enter_short (confL : ℚ) (df : List Hybrid.Row) (i : Nat)
    (h : i < df.length) :
    ((Hybrid.entryLongPass confL df).getD i default).enter_short =
      (df.getD i default).enter_short := by
  rw [entryLongPass_getD confL df i h]
  by_cases hs : Hybrid.sumPos (fun r => r.enter_long) df = true
  · rw [if_pos hs]
    by_cases hc : Hybrid.conditions_ml_long confL (df.getD i default) = true
    · rw [if_pos hc]
    · rw [if_neg hc]
  · rw [if_neg hs]

lemma conditions_ml_short_enter_long_update (confS : ℚ) (u : Hybrid.Row) :
    Hybrid.conditions_ml_short confS { u with enter_long := Val.num 0 } =
      Hybrid.conditions_ml_short confS u := rfl

lemma populate_entry_enter_long (confL confS : ℚ) (df : List Hybrid.Row)
    (i : Nat) (h : i < df.length) :
    ((Hybrid.populate_entry_trend confL confS df).getD i default).enter_long =
      if Hybrid.sumPos (fun r => r.enter_long) (df.map Hybrid.withUpside) = true then
        (if Hybrid.conditions_ml_long confL (Hybrid.withUpside (df.getD i default)) = true
         then (df.getD i default).enter_long
         else Val.num 0)
      else (df.getD i default).enter_long := by
  rw [Hybrid.populate_entry_trend]
  have h1 : i < (Hybrid.entryLongPass confL (df.map Hybrid.withUpside)).length := by
    simp [h]
  have h2 : i < (df.map Hybrid.withUpside).length := by simp [h]
  rw [entryShortPass_enter_long confS _ i h1]
  rw [entryLongPass_getD confL _ i h2]
  rw [getD_map_row _ _ _ h]
  by_cases hs : Hybrid.sumPos (fun r => r.enter_long) (df.map Hybrid.withUpside) = true
  · rw [if_pos hs, if_pos hs]
    by_cases hc : Hybrid.conditions_ml_long confL (Hybrid.withUpside (df.getD i default)) = true
    · rw [if_pos hc, if_pos hc]
      rfl
    · rw [if_neg hc, if_neg hc]
  · rw [if_neg hs, if_neg hs]
    rfl

lemma populate_entry_enter_short (confL confS : ℚ) (df : List Hybrid.Row)
    (i : Nat) (h : i < df.length) :
    ((Hybrid.populate_entry_trend confL confS df).getD i default).enter_short =
      if Hybrid.sumPos (fun r => r.enter_short) (df.map Hybrid.withUpside) = true then
        (if Hybrid.conditions_ml_short confS (Hybrid.withUpside (df.getD i default)) = true
         then (df.getD i default).enter_short
         else Val.num 0)
      else (df.getD i default).enter_short := by
  rw [Hybrid.populate_entry_trend]
  have h1 : i < (Hybrid.entryLongPass confL (df.map Hybrid.withUpside)).length := by
    simp [h]
  have h2 : i < (df.map Hybrid.withUpside).length := by simp [h]
  have hcol : Hybrid.sumPos (fun r => r.enter_short)
      (Hybrid.entryLongPass confL (df.map Hybrid.withUpside)) =
      Hybrid.sumPos (fun r => r.enter_short) (df.map Hybrid.withUpside) := by
    rw [Hybrid.sumPos, Hybrid.sumPos, entryLongPass_enter_short_col]
  have hes : ((Hybrid.entryLongPass confL (df.map Hybrid.withUpside)).getD i default).enter_short =
      (df.getD i default).enter_short := by
    rw [entryLongPass_enter_short confL _ i h2, getD_map_row _ _ _ h]
    rfl
  have hcond : Hybrid.conditions_ml_short confS
      ((Hybrid.entryLongPass confL (df.map Hybrid.withUpside)).getD i default) =
      Hybrid.conditions_ml_short confS (Hybrid.withUpside (df.getD i default)) := by
    rw [entryLongPass_getD confL _ i h2, getD_map_row _ _ _ h]
    by_cases hs : Hybrid.sumPos (fun r => r.enter_long) (df.map Hybrid.withUpside) = true
    · rw [if_pos hs]
      by_cases hc : Hybrid.conditions_ml_long confL (Hybrid.withUpside (df.getD i default)) = true
      · rw [if_pos hc]
      · rw [if_neg hc, conditions_ml_short_enter_long_update]
    · rw [if_neg hs]
  rw [entryShortPass_getD confS _ i h1, hcol, hcond]
  by_cases hs : Hybrid.sumPos (fun r => r.enter_short) (df.map Hybrid.withUpside) = true
  · rw [if_pos hs, if_pos hs]
    by_cases hc : Hybrid.conditions_ml_short confS (Hybrid.withUpside (df.getD i default)) = true
    · rw [if_pos hc, if_pos hc, hes]
    · rw [if_neg hc, if_neg hc]
  · rw [if_neg hs, if_neg hs, hes]

lemma populate_entry_ml_upside (confL confS : ℚ) (df : List Hybrid.Row)
    (i : Nat) (h : i < df.length) :
    ((Hybrid.populate_entry_trend confL confS df).getD i default).ml_upside =
      Hybrid.mlUpside (df.getD i default) := by
  rw [Hybrid.populate_entry_trend]
  have h1 : i < (Hybrid.entryLongPass confL (df.map Hybrid.withUpside)).length := by
    simp [h]
  have h2 : i < (df.map Hybrid.withUpside).length := by simp [h]
  rw [entryShortPass_ml_upside confS _ i h1, entryLongPass_ml_upside confL _ i h2,
    getD_map_row _ _ _ h]
  rfl

lemma Val.lt_num_trans (a b : ℚ) (u : Val) (h1 : Val.lt (Val.num a) u = true)
    (h2 : Val.lt u (Val.num b) = true) : a < b := by
  cases u with
  | nan => simp [Val.lt] at h1
  | inf => simp [Val.lt] at h2
  | ninf => simp [Val.lt] at h1
  | num c =>
    simp [Val.lt] at h1 h2
    linarith

lemma signal01_map_withUpside_long (df : List Hybrid.Row)
    (h01 : ∀ r ∈ df, signal01 r.enter_long) :
    ∀ r ∈ df.map Hybrid.withUpside, signal01 r.enter_long := by
  intro r hr
  obtain ⟨s, hs, hsr⟩ := List.mem_map.mp hr
  subst hsr
  exact h01 s hs

lemma signal01_map_withUpside_short (df : List Hybrid.Row)
    (h01 : ∀ r ∈ df, signal01 r.enter_short) :
    ∀ r ∈ df.map Hybrid.withUpside, signal01 r.enter_short := by
  intro r hr
  obtain ⟨s, hs, hsr⟩ := List.mem_map.mp hr
  subst hsr
  exact h01 s hs

lemma entry_long_one_implies (confL confS : ℚ) (df : List Hybrid.Row) (i : Nat)
    (h : i < df.length) (h01 : ∀ r ∈ df, signal01 r.enter_long)
    (hout : ((Hybrid.populate_entry_trend confL confS df).getD i default).enter_long =
      Val.num 1) :
    Hybrid.conditions_ml_long confL (Hybrid.withUpside (df.getD i default)) = true ∧
      (df.getD i default).enter_long = Val.num 1 := by
  rw [populate_entry_enter_long confL confS df i h] at hout
  by_cases hs : Hybrid.sumPos (fun r => r.enter_long) (df.map Hybrid.withUpside) = true
  · rw [if_pos hs] at hout
    by_cases hc : Hybrid.conditions_ml_long confL (Hybrid.withUpside (df.getD i default)) = true
    · rw [if_pos hc] at hout
      exact ⟨hc, hout⟩
    · rw [if_neg hc] at hout
      exact absurd hout (by decide)
  · rw [if_neg hs] at hout
    exfalso
    apply hs
    apply sumPos_of_one _ _ (signal01_map_withUpside_long df h01) i (by simpa using h)
    rw [getD_map_row _ _ _ h]
    exact hout

lemma entry_short_one_implies (confL confS : ℚ) (df : List Hybrid.Row) (i : Nat)
    (h : i < df.length) (h01 : ∀ r ∈ df, signal01 r.enter_short)
    (hout : ((Hybrid.populate_entry_trend confL confS df).getD i default).enter_short =
      Val.num 1) :
    Hybrid.conditions_ml_short confS (Hybrid.withUpside (df.getD i default)) = true ∧
      (df.getD i default).enter_short = Val.num 1 := by
  rw [populate_entry_enter_short confL confS df i h] at hout
  by_cases hs : Hybrid.sumPos (fun r => r.enter_short) (df.map Hybrid.withUpside) = true
  · rw [if_pos hs] at hout
    by_cases hc : Hybrid.conditions_ml_short confS (Hybrid.withUpside (df.getD i default)) = true
    · rw [if_pos hc] at hout
      exact ⟨hc, hout⟩
    · rw [if_neg hc] at hout
      exact absurd hout (by decide)
  · rw [if_neg hs] at hout
    exfalso
    apply hs
    apply sumPos_of_one _ _ (signal01_map_withUpside_short df h01) i (by simpa using h)
    rw [getD_map_row _ _ _ h]
    exact hout

lemma entry_long_keep (confL confS : ℚ) (df : List Hybrid.Row) (i : Nat)
    (h : i < df.length) (h01 : ∀ r ∈ df, signal01 r.enter_long)
    (h1 : (df.getD i default).enter_long = Val.num 1)
    (hc : Hybrid.conditions_ml_long confL (Hybrid.withUpside (df.getD i default)) = true) :
    ((Hybrid.populate_entry_trend confL confS df).getD i default).enter_long = Val.num 1 := by
  rw [populate_entry_enter_long confL confS df i h]
  have hs : Hybrid.sumPos (fun r => r.enter_long) (df.map Hybrid.withUpside) = true := by
    apply sumPos_of_one _ _ (signal01_map_withUpside_long df h01) i (by simpa using h)
    rw [getD_map_row _ _ _ h]
    exact h1
  rw [if_pos hs, if_pos hc]
  exact h1

lemma entry_short_keep (confL confS : ℚ) (df : List Hybrid.Row) (i : Nat)
    (h : i < df.length) (h01 : ∀ r ∈ df, signal01 r.enter_short)
    (h1 : (df.getD i default).enter_short = Val.num 1)
    (hc : Hybrid.conditions_ml_short confS (Hybrid.withUpside (df.getD i default)) = true) :
    ((Hybrid.populate_entry_trend confL confS df).getD i default).enter_short = Val.num 1 := by
  rw [populate_entry_enter_short confL confS df i h]
  have hs : Hybrid.sumPos (fun r => r.enter_short) (df.map Hybrid.withUpside) = true := by
    apply sumPos_of_one _ _ (signal01_map_withUpside_short df h01) i (by simpa using h)
    rw [getD_map_row _ _ _ h]
    exact h1
  rw [if_pos hs, if_pos hc]
  exact h1

/-- C10: no row ends with `enter_long = 1` and `enter_short = 1`
simultaneously — in the primary strategy because `enter_short` is never
written, and in the Hybrid strategy (prediction columns present, wrapped
signals 0/1-valued) because the surviving long and short filter conditions
require `ml_upside` above a positive and below a negative bound at once. -/
theorem C10_no_dual_entry :
    (∀ (df : List NFI.Row) (i : Nat), i < df.length →
      ¬(((NFI.populate_entry_trend df).getD i default).enter_long = Val.num 1 ∧
        ((NFI.populate_entry_trend df).getD i default).enter_short = Val.num 1)) ∧
    (∀ (confL confS : ℚ) (df : List Hybrid.Row) (i : Nat), 0 < confL → 0 < confS →
      (∀ r ∈ df, signal01 r.enter_long) → (∀ r ∈ df, signal01 r.enter_short) →
      i < df.length →
      ¬(((Hybrid.populate_entry_trend confL confS df).getD i default).enter_long = Val.num 1 ∧
        ((Hybrid.populate_entry_trend confL confS df).getD i default).enter_short = Val.num 1)) := by
  constructor
  · intro df i h hcontra
    obtain ⟨_, hshort⟩ := hcontra
    rw [NFI.populate_entry_trend, getD_map_row _ _ _ h] at hshort
    by_cases hc : NFI.enter_long_conditions (df.getD i default) = true
    · rw [if_pos hc] at hshort
      exact absurd hshort (by decide)
    · rw [if_neg hc] at hshort
      exact absurd hshort (by decide)
  · intro confL confS df i hL hS h01L h01S h hcontra
    obtain ⟨hlong, hshort⟩ := hcontra
    obtain ⟨hcl, _⟩ := entry_long_one_implies confL confS df i h h01L hlong
    obtain ⟨hcs, _⟩ := entry_short_one_implies confL confS df i h h01S hshort
    rw [Hybrid.conditions_ml_long, Bool.and_eq_true] at hcl
    rw [Hybrid.conditions_ml_short, Bool.and_eq_true] at hcs
    have hgt := hcl.2
    have hlt := hcs.2
    rw [Val.gt] at hgt
    have hab := Val.lt_num_trans _ _ _ hgt hlt
    rw [qdiv_eq, qneg_eq, qdiv_eq] at hab
    have hL' : (0 : ℚ) < confL / 100 := by positivity
    have hS' : (0 : ℚ) < confS / 100 := by positivity
    linarith

/-- C10 witness row: a wrapped-strategy row with no signals. -/
def hrow0 : Hybrid.Row :=
  { close := Val.num 100, s_close := Val.num 100, do_predict := Val.num 1,
    enter_long := Val.num 0, enter_short := Val.num 0, exit_long := Val.num 0,
    exit_short := Val.num 0, exit_tag := none, ml_upside := Val.nan }

/-- Witness for C10 at a concrete input. -/
theorem C10_no_dual_entry_witness :
    ¬(((Hybrid.populate_entry_trend (mkRat 60 100) (mkRat 60 100) [hrow0]).getD 0
          default).enter_long = Val.num 1 ∧
      ((Hybrid.populate_entry_trend (mkRat 60 100) (mkRat 60 100) [hrow0]).getD 0
          default).enter_short = Val.num 1) :=
  C10_no_dual_entry.2 (mkRat 60 100) (mkRat 60 100) [hrow0] 0 (by decide) (by decide)
    (by decide) (by decide) (by decide)

/-- A wrapped-strategy row marked `enter_long = 1` with `do_predict = 1`,
close 100 and prediction `sc` (used in the Hybrid filtering scenario). -/
def mkHRow (sc : ℚ) : Hybrid.Row :=
  { close := Val.num 100, s_close := Val.num sc, do_predict := Val.num 1,
    enter_long := Val.num 1, enter_short := Val.num 0, exit_long := Val.num 0,
    exit_short := Val.num 0, exit_tag := none, ml_upside := Val.nan }

/-- The Hybrid filtering scenario: ten rows marked enter-long by the
wrapped strategy, four with ML upside 1% (above the 0.6% threshold) and
six with ML upside 0 (below it). -/
def scenarioDf : List Hybrid.Row :=
  [mkHRow 101, mkHRow 101, mkHRow 101, mkHRow 101, mkHRow 100,
   mkHRow 100, mkHRow 100, mkHRow 100, mkHRow 100, mkHRow 100]

/-- Number of rows with `enter_long = 1`. -/
def countEnterLong (df : List Hybrid.Row) : Nat :=
  (df.filter (fun r => Val.eqb r.enter_long (Val.num 1))).length

/-- C7: the Hybrid entry pass computes
`ml_upside = (&-s_close - close) / close`; a row the wrapped strategy
marked `enter_long = 1` stays 1 exactly when `do_predict = 1` and
`ml_upside` exceeds the configured long confidence threshold (value/100),
analogously below the negated short threshold for `enter_short`; rows the
wrapped strategy left at 0 stay 0; and in the 10-marked-rows scenario with
the confidence condition failing on 6 of them, exactly 4 rows remain. -/
theorem C7_hybrid_entry_filter (confL confS : ℚ) (df : List Hybrid.Row) (i : Nat)
    (h : i < df.length)
    (h01L : ∀ r ∈ df, signal01 r.enter_long)
    (h01S : ∀ r ∈ df, signal01 r.enter_short) :
    ((Hybrid.populate_entry_trend confL confS df).getD i default).ml_upside =
      Val.div (Val.sub (df.getD i default).s_close (df.getD i default).close)
        (df.getD i default).close ∧
    ((df.getD i default).enter_long = Val.num 1 →
      (((Hybrid.populate_entry_trend confL confS df).getD i default).enter_long = Val.num 1 ↔
        (Val.eqb (df.getD i default).do_predict (Val.num 1) = true ∧
         Val.gt (Hybrid.mlUpside (df.getD i default)) (Val.num (confL / 100)) = true))) ∧
    ((df.getD i default).enter_short = Val.num 1 →
      (((Hybrid.populate_entry_trend confL confS df).getD i default).enter_short = Val.num 1 ↔
        (Val.eqb (df.getD i default).do_predict (Val.num 1) = true ∧
         Val.lt (Hybrid.mlUpside (df.getD i default)) (Val.num (-(confS / 100))) = true))) ∧
    ((df.getD i default).enter_long = Val.num 0 →
      ((Hybrid.populate_entry_trend confL confS df).getD i default).enter_long = Val.num 0) ∧
    ((df.getD i default).enter_short = Val.num 0 →
      ((Hybrid.populate_entry_trend confL confS df).getD i default).enter_short = Val.num 0) ∧
    countEnterLong scenarioDf = 10 ∧
    countEnterLong (Hybrid.populate_entry_trend (mkRat 60 100) (mkRat 60 100) scenarioDf) = 4 := by
  refine ⟨?_, ?_, ?_, ?_, ?_, by decide, by decide⟩
  · rw [populate_entry_ml_upside confL confS df i h]
    rfl
  · intro h1
    constructor
    · intro hout
      obtain ⟨hc, _⟩ := entry_long_one_implies confL confS df i h h01L hout
      rw [Hybrid.conditions_ml_long, Bool.and_eq_true] at hc
      obtain ⟨he, hg⟩ := hc
      rw [qdiv_eq] at hg
      exact ⟨he, hg⟩
    · intro hrhs
      obtain ⟨he, hg⟩ := hrhs
      apply entry_long_keep confL confS df i h h01L h1
      rw [Hybrid.conditions_ml_long, Bool.and_eq_true]
      refine ⟨he, ?_⟩
      rw [qdiv_eq]
      exact hg
  · intro h1
    constructor
    · intro hout
      obtain ⟨hc, _⟩ := entry_short_one_implies confL confS df i h h01S hout
      rw [Hybrid.conditions_ml_short, Bool.and_eq_true] at hc
      obtain ⟨he, hg⟩ := hc
      rw [qneg_eq, qdiv_eq] at hg
      exact ⟨he, hg⟩
    · intro hrhs
      obtain ⟨he, hg⟩ := hrhs
      apply entry_short_keep confL confS df i h h01S h1
      rw [Hybrid.conditions_ml_short, Bool.and_eq_true]
      refine ⟨he, ?_⟩
      rw [qneg_eq, qdiv_eq]
      exact hg
  · intro h0
    rw [populate_entry_enter_long confL confS df i h]
    by_cases hs : Hybrid.sumPos (fun r => r.enter_long) (df.map Hybrid.withUpside) = true
    · rw [if_pos hs]
      by_cases hc : Hybrid.conditions_ml_long confL (Hybrid.withUpside (df.getD i default)) = true
      · rw [if_pos hc]
        exact h0
      · rw [if_neg hc]
    · rw [if_neg hs]
      exact h0
  · intro h0
    rw [populate_entry_enter_short confL confS df i h]
    by_cases hs : Hybrid.sumPos (fun r => r.enter_short) (df.map Hybrid.withUpside) = true
    · rw [if_pos hs]
      by_cases hc : Hybrid.conditions_ml_short confS (Hybrid.withUpside (df.getD i default)) = true
      · rw [if_pos hc]
        exact h0
      · rw [if_neg hc]
    · rw [if_neg hs]
      exact h0

/-- Witness for C7 at a concrete input: the first scenario row (marked,
upside 1%) stays marked. -/
theorem C7_hybrid_entry_filter_witness :
    ((Hybrid.populate_entry_trend (mkRat 60 100) (mkRat 60 100) scenarioDf).getD 0
        default).ml_upside =
      Val.div (Val.sub (scenarioDf.getD 0 default).s_close
          (scenarioDf.getD 0 default).close)
        (scenarioDf.getD 0 default).close ∧
    countEnterLong (Hybrid.populate_entry_trend (mkRat 60 100) (mkRat 60 100) scenarioDf) = 4 :=
  ⟨(C7_hybrid_entry_filter (mkRat 60 100) (mkRat 60 100) scenarioDf 0 (by decide)
      (by decide) (by decide)).1,
    (C7_hybrid_entry_filter (mkRat 60 100) (mkRat 60 100) scenarioDf 0 (by decide)
      (by decide) (by decide)).2.2.2.2.2.2⟩

namespace Hybrid

/-- The row seen by the exit pass after the `ml_upside` presence check:
unchanged when the column is already present, otherwise with `ml_upside`
computed (`if 'ml_upside' not in dataframe.columns`). -/
def upRow (hasCol : Bool) (r : Row) : Row := if hasCol then r else withUpside r

end Hybrid

@[simp] lemma exitLongPass_length (thr : ℚ) (df : List Hybrid.Row) :
    (Hybrid.exitLongPass thr df).length = df.length := by
  simp [Hybrid.exitLongPass]

@[simp] lemma exitShortPass_length (thr : ℚ) (df : List Hybrid.Row) :
    (Hybrid.exitShortPass thr df).length = df.length := by
  rw [Hybrid.exitShortPass]
  split <;> simp

@[simp] lemma upStage_length (hasCol : Bool) (df : List Hybrid.Row) :
    (if hasCol then df else df.map Hybrid.withUpside).length = df.length := by
  cases hasCol <;> simp

lemma upStage_getD (hasCol : Bool) (df : List Hybrid.Row) (i : Nat)
    (h : i < df.length) :
    (if hasCol then df else df.map Hybrid.withUpside).getD i default =
      Hybrid.upRow hasCol (df.getD i default) := by
  cases hasCol
  · simp only [Bool.false_eq_true, if_false]
    rw [getD_map_row _ _ _ h]
    rfl
  · rfl

lemma upRow_do_predict (hasCol : Bool) (r : Hybrid.Row) :
    (Hybrid.upRow hasCol r).do_predict = r.do_predict := by
  cases hasCol <;> rfl

lemma upRow_exit_long (hasCol : Bool) (r : Hybrid.Row) :
    (Hybrid.upRow hasCol r).exit_long = r.exit_long := by
  cases hasCol <;> rfl

lemma upRow_exit_short (hasCol : Bool) (r : Hybrid.Row) :
    (Hybrid.upRow hasCol r).exit_short = r.exit_short := by
  cases hasCol <;> rfl

lemma upRow_exit_tag (hasCol : Bool) (r : Hybrid.Row) :
    (Hybrid.upRow hasCol r).exit_tag = r.exit_tag := by
  cases hasCol <;> rfl

lemma conditions_ml_exit_short_long_update (thr : ℚ) (u : Hybrid.Row) :
    Hybrid.conditions_ml_exit_short thr
      { u with exit_long := Val.num 1, exit_tag := some "ml_confidence_lost" } =
      Hybrid.conditions_ml_exit_short thr u := rfl

lemma populate_exit_row (thr : ℚ) (hasCol : Bool) (df : List Hybrid.Row) (i : Nat)
    (h : i < df.length) :
    (Hybrid.populate_exit_trend thr hasCol df).getD i default =
      (if Hybrid.conditions_ml_exit_short thr (Hybrid.upRow hasCol (df.getD i default)) = true then
        { (if Hybrid.conditions_ml_exit_long thr (Hybrid.upRow hasCol (df.getD i default)) = true then
            { Hybrid.upRow hasCol (df.getD i default) with
                exit_long := Val.num 1, exit_tag := some "ml_confidence_lost" }
          else Hybrid.upRow hasCol (df.getD i default)) with
            exit_short := Val.num 1, exit_tag := some "ml_confidence_lost_short" }
      else
        (if Hybrid.conditions_ml_exit_long thr (Hybrid.upRow hasCol (df.getD i default)) = true then
            { Hybrid.upRow hasCol (df.getD i default) with
                exit_long := Val.num 1, exit_tag := some "ml_confidence_lost" }
          else Hybrid.upRow hasCol (df.getD i default))) := by
  have hml : Hybrid.ml_exit_on_confidence_loss = true := rfl
  have hcs : Hybrid.can_short = true := rfl
  rw [Hybrid.populate_exit_trend, if_pos hml, Hybrid.exitShortPass, if_pos hcs]
  have h1 : i < (Hybrid.exitLongPass thr
      (if hasCol then df else df.map Hybrid.withUpside)).length := by
    simp [h]
  rw [getD_map_row _ _ _ h1, Hybrid.exitLongPass]
  have h2 : i < (if hasCol then df else df.map Hybrid.withUpside).length := by
    simp [h]
  rw [getD_map_row _ _ _ h2, upStage_getD hasCol df i h]
  by_cases hl : Hybrid.conditions_ml_exit_long thr (Hybrid.upRow hasCol (df.getD i default)) = true
  · rw [if_pos hl, conditions_ml_exit_short_long_update]
  · rw [if_neg hl]

lemma withUpside_do_predict (r : Hybrid.Row) :
    (Hybrid.withUpside r).do_predict = r.do_predict := rfl

/-- C8 counterexample row: `do_predict = 1` and `ml_upside = 0`, so with
the default exit threshold 0.45 both the long and the short
confidence-loss conditions hold on the same row. -/
def c8row : Hybrid.Row :=
  { close := Val.num 100, s_close := Val.num 100, do_predict := Val.num 1,
    enter_long := Val.num 0, enter_short := Val.num 0, exit_long := Val.num 0,
    exit_short := Val.num 0, exit_tag := none, ml_upside := Val.nan }

/-- C8: the claim states that `exit_long` rows forced by the long
confidence-loss condition carry exit tag `'ml_confidence_lost'`.  This is
false when the short condition also holds on the same row (here
`ml_upside = 0`, threshold 0.45, so `0 < 0.0045` and `0 > -0.0045` both
hold): `exit_long` is set to 1 but the tag is overwritten to
`'ml_confidence_lost_short'` by the short block. -/
theorem C8_counterexample :
    Hybrid.conditions_ml_exit_long (mkRat 45 100) (Hybrid.upRow false c8row) = true ∧
    ((Hybrid.populate_exit_trend (mkRat 45 100) false [c8row]).getD 0 default).exit_long =
      Val.num 1 ∧
    ((Hybrid.populate_exit_trend (mkRat 45 100) false [c8row]).getD 0 default).exit_tag =
      some "ml_confidence_lost_short" := by
  refine ⟨by decide, by decide, by decide⟩

/-- C8 (amended): the Hybrid exit pass never clears an exit the wrapped
strategy set — exit columns are set, not conjoined; `exit_long` is forced
to 1 on every row where `do_predict = 1` and `ml_upside` is below the
configured exit threshold (value/100), and `exit_short` (with tag
`'ml_confidence_lost_short'`) where `ml_upside` is above the threshold's
negation; the long rows carry tag `'ml_confidence_lost'` except when the
short condition also holds, in which case the short block overwrites the
tag. -/
theorem C8_exit_forcing (thr : ℚ) (hasCol : Bool) (df : List Hybrid.Row) (i : Nat)
    (h : i < df.length) :
    ((df.getD i default).exit_long = Val.num 1 →
      ((Hybrid.populate_exit_trend thr hasCol df).getD i default).exit_long = Val.num 1) ∧
    ((df.getD i default).exit_short = Val.num 1 →
      ((Hybrid.populate_exit_trend thr hasCol df).getD i default).exit_short = Val.num 1) ∧
    (Hybrid.conditions_ml_exit_long thr (Hybrid.upRow hasCol (df.getD i default)) = true ↔
      (Val.eqb (df.getD i default).do_predict (Val.num 1) = true ∧
       Val.lt (Hybrid.upRow hasCol (df.getD i default)).ml_upside
         (Val.num (thr / 100)) = true)) ∧
    (Hybrid.conditions_ml_exit_short thr (Hybrid.upRow hasCol (df.getD i default)) = true ↔
      (Val.eqb (df.getD i default).do_predict (Val.num 1) = true ∧
       Val.gt (Hybrid.upRow hasCol (df.getD i default)).ml_upside
         (Val.num (-(thr / 100))) = true)) ∧
    (Hybrid.conditions_ml_exit_long thr (Hybrid.upRow hasCol (df.getD i default)) = true →
      ((Hybrid.populate_exit_trend thr hasCol df).getD i default).exit_long = Val.num 1) ∧
    (Hybrid.conditions_ml_exit_short thr (Hybrid.upRow hasCol (df.getD i default)) = true →
      ((Hybrid.populate_exit_trend thr hasCol df).getD i default).exit_short = Val.num 1 ∧
      ((Hybrid.populate_exit_trend thr hasCol df).getD i default).exit_tag =
        some "ml_confidence_lost_short") ∧
    (Hybrid.conditions_ml_exit_long thr (Hybrid.upRow hasCol (df.getD i default)) = true →
      Hybrid.conditions_ml_exit_short thr (Hybrid.upRow hasCol (df.getD i default)) = false →
      ((Hybrid.populate_exit_trend thr hasCol df).getD i default).exit_tag =
        some "ml_confidence_lost") := by
  rw [populate_exit_row thr hasCol df i h]
  refine ⟨?_, ?_, ?_, ?_, ?_, ?_, ?_⟩
  · intro h1
    by_cases hsh : Hybrid.conditions_ml_exit_short thr
        (Hybrid.upRow hasCol (df.getD i default)) = true
    · rw [if_pos hsh]
      by_cases hl : Hybrid.conditions_ml_exit_long thr
          (Hybrid.upRow hasCol (df.getD i default)) = true
      · rw [if_pos hl]
      · rw [if_neg hl]
        show (Hybrid.upRow hasCol (df.getD i default)).exit_long = Val.num 1
        rw [upRow_exit_long]
        exact h1
    · rw [if_neg hsh]
      by_cases hl : Hybrid.conditions_ml_exit_long thr
          (Hybrid.upRow hasCol (df.getD i default)) = true
      · rw [if_pos hl]
      · rw [if_neg hl]
        rw [upRow_exit_long]
        exact h1
  · intro h1
    by_cases hsh : Hybrid.conditions_ml_exit_short thr
        (Hybrid.upRow hasCol (df.getD i default)) = true
    · rw [if_pos hsh]
    · rw [if_neg hsh]
      by_cases hl : Hybrid.conditions_ml_exit_long thr
          (Hybrid.upRow hasCol (df.getD i default)) = true
      · rw [if_pos hl]
        show (Hybrid.upRow hasCol (df.getD i default)).exit_short = Val.num 1
        rw [upRow_exit_short]
        exact h1
      · rw [if_neg hl]
        rw [upRow_exit_short]
        exact h1
  · rw [Hybrid.conditions_ml_exit_long, Bool.and_eq_true, upRow_do_predict, qdiv_eq]
  · rw [Hybrid.conditions_ml_exit_short, Bool.and_eq_true, upRow_do_predict,
      qneg_eq, qdiv_eq]
  · intro hl
    by_cases hsh : Hybrid.conditions_ml_exit_short thr
        (Hybrid.upRow hasCol (df.getD i default)) = true
    · rw [if_pos hsh, if_pos hl]
    · rw [if_neg hsh, if_pos hl]
  · intro hsh
    rw [if_pos hsh]
    exact ⟨rfl, rfl⟩
  · intro hl hsh
    rw [if_neg (by rw [hsh]; exact Bool.false_ne_true), if_pos hl]

/-- C8 witness row: the wrapped strategy already set `exit_long = 1`. -/
def c8wrow : Hybrid.Row := { c8row with exit_long := Val.num 1, s_close := Val.num 110 }

/-- Witness for C8 at a concrete input: a wrapped `exit_long = 1` row stays 1. -/
theorem C8_exit_forcing_witness :
    ((Hybrid.populate_exit_trend (mkRat 45 100) true [c8wrow]).getD 0 default).exit_long =
      Val.num 1 :=
  (C8_exit_forcing (mkRat 45 100) true [c8wrow] 0 (by decide)).1 (by decide)

lemma NFI_populate_exit_getD (df : List NFI.Row) (i : Nat) (h : i < df.length) :
    (NFI.populate_exit_trend df).getD i default =
      { exit_long :=
          if NFI.exit_long_conditions (df.getD i default) = true then Val.num 1 else Val.nan,
        exit_short :=
          if NFI.exit_short_conditions (df.getD i default) = true then Val.num 1 else Val.nan } := by
  rw [NFI.populate_exit_trend, getD_map_row _ _ _ h]

/-- C4: on rows with `do_predict ≠ 1`, the primary strategy's entry and
exit condition sets are all false (so its passes write no signal), the
Hybrid entry filter nullifies any wrapped entry mark (wrapped signals
0/1-valued), and the Hybrid forced confidence-loss exits do not fire (the
exit columns and tag pass through unchanged) — regardless of all other
column values. -/
theorem C4_validity_gate :
    (∀ r : NFI.Row, Val.eqb r.do_predict (Val.num 1) = false →
      NFI.enter_long_conditions r = false ∧ NFI.exit_long_conditions r = false ∧
        NFI.exit_short_conditions r = false) ∧
    (∀ (df : List NFI.Row) (i : Nat), i < df.length →
      Val.eqb (df.getD i default).do_predict (Val.num 1) = false →
      ((NFI.populate_entry_trend df).getD i default).enter_long = Val.nan ∧
      ((NFI.populate_entry_trend df).getD i default).enter_short = Val.nan ∧
      ((NFI.populate_exit_trend df).getD i default).exit_long = Val.nan ∧
      ((NFI.populate_exit_trend df).getD i default).exit_short = Val.nan) ∧
    (∀ (confL confS : ℚ) (df : List Hybrid.Row) (i : Nat),
      (∀ r ∈ df, signal01 r.enter_long) → (∀ r ∈ df, signal01 r.enter_short) →
      i < df.length →
      Val.eqb (df.getD i default).do_predict (Val.num 1) = false →
      ((Hybrid.populate_entry_trend confL confS df).getD i default).enter_long ≠ Val.num 1 ∧
      ((Hybrid.populate_entry_trend confL confS df).getD i default).enter_short ≠ Val.num 1) ∧
    (∀ (thr : ℚ) (hasCol : Bool) (df : List Hybrid.Row) (i : Nat), i < df.length →
      Val.eqb (df.getD i default).do_predict (Val.num 1) = false →
      ((Hybrid.populate_exit_trend thr hasCol df).getD i default).exit_long =
        (df.getD i default).exit_long ∧
      ((Hybrid.populate_exit_trend thr hasCol df).getD i default).exit_short =
        (df.getD i default).exit_short ∧
      ((Hybrid.populate_exit_trend thr hasCol df).getD i default).exit_tag =
        (df.getD i default).exit_tag) := by
  refine ⟨?_, ?_, ?_, ?_⟩
  · intro r hdp
    refine ⟨?_, ?_, ?_⟩
    · simp [NFI.enter_long_conditions, hdp]
    · simp [NFI.exit_long_conditions, hdp]
    · simp [NFI.exit_short_conditions, hdp]
  · intro df i h hdp
    obtain ⟨r, hr⟩ : ∃ r, df.getD i default = r := ⟨_, rfl⟩
    rw [hr] at hdp
    have hoff1 : NFI.enter_long_conditions r = false := by
      simp [NFI.enter_long_conditions, hdp]
    have hoff2 : NFI.exit_long_conditions r = false := by
      simp [NFI.exit_long_conditions, hdp]
    have hoff3 : NFI.exit_short_conditions r = false := by
      simp [NFI.exit_short_conditions, hdp]
    rw [NFI.populate_entry_trend, getD_map_row _ _ _ h, hr,
      if_neg (by rw [hoff1]; exact Bool.false_ne_true),
      NFI_populate_exit_getD df i h, hr,
      if_neg (by rw [hoff2]; exact Bool.false_ne_true),
      if_neg (by rw [hoff3]; exact Bool.false_ne_true)]
    exact ⟨rfl, rfl, rfl, rfl⟩
  · intro confL confS df i h01L h01S h hdp
    constructor
    · intro hout
      obtain ⟨hc, _⟩ := entry_long_one_implies confL confS df i h h01L hout
      rw [Hybrid.conditions_ml_long, Bool.and_eq_true] at hc
      have h1 := hc.1
      rw [withUpside_do_predict, hdp] at h1
      exact absurd h1 (by decide)
    · intro hout
      obtain ⟨hc, _⟩ := entry_short_one_implies confL confS df i h h01S hout
      rw [Hybrid.conditions_ml_short, Bool.and_eq_true] at hc
      have h1 := hc.1
      rw [withUpside_do_predict, hdp] at h1
      exact absurd h1 (by decide)
  · intro thr hasCol df i h hdp
    have hcl : Hybrid.conditions_ml_exit_long thr
        (Hybrid.upRow hasCol (df.getD i default)) = false := by
      rw [Hybrid.conditions_ml_exit_long, upRow_do_predict, hdp, Bool.false_and]
    have hcs : Hybrid.conditions_ml_exit_short thr
        (Hybrid.upRow hasCol (df.getD i default)) = false := by
      rw [Hybrid.conditions_ml_exit_short, upRow_do_predict, hdp, Bool.false_and]
    rw [populate_exit_row thr hasCol df i h,
      if_neg (by rw [hcs]; exact Bool.false_ne_true),
      if_neg (by rw [hcl]; exact Bool.false_ne_true)]
    exact ⟨upRow_exit_long hasCol _, upRow_exit_short hasCol _, upRow_exit_tag hasCol _⟩

/-- C4 witness row for the primary strategy: `do_predict = 0` and every
other entry/exit condition satisfied. -/
def c4nrow : NFI.Row :=
  { do_predict := Val.num 0, s_close := Val.num 1, ema_12 := Val.num 2,
    ema_26 := Val.num 1, rsi_14 := Val.num 10, bb_width := Val.num 1,
    volume := Val.num 5 }

/-- C4 witness row for the Hybrid strategy: `do_predict = 0` and a wrapped
`enter_long = 1` mark with large ML upside. -/
def c4hrow : Hybrid.Row :=
  { close := Val.num 100, s_close := Val.num 110, do_predict := Val.num 0,
    enter_long := Val.num 1, enter_short := Val.num 0, exit_long := Val.num 0,
    exit_short := Val.num 0, exit_tag := none, ml_upside := Val.nan }

/-- Witness for C4 at concrete inputs. -/
theorem C4_validity_gate_witness :
    NFI.enter_long_conditions c4nrow = false ∧
    ((NFI.populate_entry_trend [c4nrow]).getD 0 default).enter_long = Val.nan ∧
    ((Hybrid.populate_entry_trend (mkRat 60 100) (mkRat 60 100) [c4hrow]).getD 0
        default).enter_long ≠ Val.num 1 ∧
    ((Hybrid.populate_exit_trend (mkRat 45 100) false [c4hrow]).getD 0 default).exit_tag =
      ([c4hrow].getD 0 default).exit_tag :=
  ⟨(C4_validity_gate.1 c4nrow (by decide)).1,
    (C4_validity_gate.2.1 [c4nrow] 0 (by decide) (by decide)).1,
    (C4_validity_gate.2.2.1 (mkRat 60 100) (mkRat 60 100) [c4hrow] 0 (by decide)
      (by decide) (by decide) (by decide)).1,
    (C4_validity_gate.2.2.2 (mkRat 45 100) false [c4hrow] 0 (by decide) (by decide)).2.2⟩

namespace NFI

/-- Embeds the band-width ratio feature of `feature_engineering_expand_all`:
`%-bb_width-period = (bb_upperband - bb_lowerband) / bb_middleband`.  The
band series are produced by the external qtpylib indicator library and are
inputs here. -/
def bb_width_feature (upper lower mid : List Val) : List Val :=
  (List.range upper.length).map (fun i =>
    Val.div (Val.sub (getV upper i) (getV lower i)) (getV mid i))

/-- Embeds the close-over-lower-band feature:
`%-close-bb_lower-period = close / bb_lowerband`. -/
def close_bb_lower_feature (close lower : List Val) : List Val :=
  (List.range close.length).map (fun i =>
    Val.div (getV close i) (getV lower i))

/-- Embeds the relative-volume feature:
`%-relative_volume-period = volume / volume.rolling(period).mean()`. -/
def relative_volume_feature (period : Nat) (volume : List Val) : List Val :=
  (List.range volume.length).map (fun i =>
    Val.div (getV volume i) (getV (rollingMean period volume) i))

end NFI

lemma Val.div_nan_right (a : Val) : Val.div a Val.nan = Val.nan := by
  cases a <;> rfl

lemma Val.div_zero_not_num (a : Val) (q : ℚ) :
    Val.div a (Val.num 0) ≠ Val.num q := by
  cases a with
  | nan => simp [Val.div]
  | inf => simp [Val.div]
  | ninf => simp [Val.div]
  | num a =>
    simp only [Val.div]
    split_ifs <;> simp

/-- C9: the claim states that every zero-denominator row of a ratio
feature yields NaN, propagating so that boolean conditions over it are
false.  This is false for a nonzero numerator: `close / bb_lowerband` with
close 37 and lower band exactly 0 yields +infinity, which is not NaN and
satisfies boolean conditions such as `> 0.015` (`mkRat 15 1000`).  A zero
lower band with nonzero close is reachable: with window 4 and 2.2 standard
deviations, typical prices 17, 17, 17, 37 give mean 22 and sample standard
deviation 10, so the lower band is 22 − 2.2·10 = 0 while the close is 37. -/
theorem C9_counterexample :
    getV (NFI.close_bb_lower_feature [Val.num 37] [Val.num 0]) 0 = Val.inf ∧
    Val.inf ≠ Val.nan ∧
    Val.gt Val.inf (Val.num (mkRat 15 1000)) = true := by
  refine ⟨by decide, by decide, by decide⟩

/-- C9 (amended): in the three ratio features, a NaN denominator yields
NaN and a zero denominator never yields a finite value (in particular it
is never coerced to zero: the result is NaN when the numerator is zero or
NaN and a signed infinity otherwise), and NaN values make every boolean
comparison evaluate to false. -/
theorem C9_ratio_undefined (upper lower mid close volume : List Val)
    (p i : Nat) (hu : i < upper.length) (hc : i < close.length)
    (hv : i < volume.length) :
    (getV mid i = Val.nan →
      getV (NFI.bb_width_feature upper lower mid) i = Val.nan) ∧
    (getV mid i = Val.num 0 →
      ∀ q : ℚ, getV (NFI.bb_width_feature upper lower mid) i ≠ Val.num q) ∧
    (getV lower i = Val.nan →
      getV (NFI.close_bb_lower_feature close lower) i = Val.nan) ∧
    (getV lower i = Val.num 0 →
      ∀ q : ℚ, getV (NFI.close_bb_lower_feature close lower) i ≠ Val.num q) ∧
    (getV (rollingMean p volume) i = Val.nan →
      getV (NFI.relative_volume_feature p volume) i = Val.nan) ∧
    (getV (rollingMean p volume) i = Val.num 0 →
      ∀ q : ℚ, getV (NFI.relative_volume_feature p volume) i ≠ Val.num q) ∧
    (∀ v : Val, Val.lt Val.nan v = false ∧ Val.lt v Val.nan = false ∧
      Val.gt Val.nan v = false ∧ Val.gt v Val.nan = false ∧
      Val.eqb Val.nan v = false ∧ Val.eqb v Val.nan = false) := by
  refine ⟨?_, ?_, ?_, ?_, ?_, ?_, ?_⟩
  · intro hm
    rw [NFI.bb_width_feature, getV_map_range _ _ _ hu, hm, Val.div_nan_right]
  · intro hm q
    rw [NFI.bb_width_feature, getV_map_range _ _ _ hu, hm]
    exact Val.div_zero_not_num _ q
  · intro hm
    rw [NFI.close_bb_lower_feature, getV_map_range _ _ _ hc, hm, Val.div_nan_right]
  · intro hm q
    rw [NFI.close_bb_lower_feature, getV_map_range _ _ _ hc, hm]
    exact Val.div_zero_not_num _ q
  · intro hm
    rw [NFI.relative_volume_feature, getV_map_range _ _ _ hv, hm, Val.div_nan_right]
  · intro hm q
    rw [NFI.relative_volume_feature, getV_map_range _ _ _ hv, hm]
    exact Val.div_zero_not_num _ q
  · intro v
    refine ⟨?_, ?_, ?_, ?_, ?_, ?_⟩ <;> cases v <;> rfl

/-- Witness for C9 at a concrete input: a NaN middle band makes the
band-width ratio NaN. -/
theorem C9_ratio_undefined_witness :
    getV (NFI.bb_width_feature [Val.num 1] [Val.num 1] [Val.nan]) 0 = Val.nan :=
  (C9_ratio_undefined [Val.num 1] [Val.num 1] [Val.nan] [Val.num 1] [Val.num 1]
      2 0 (by decide) (by decide) (by decide)).1 (by decide)
